import Mathlib

/-!
Shallow embedding of `aws_account.go` from the vendored
`cloudhealth-sdk-go` package of `terraform-provider-cloudhealth`.

The HTTP transport (building the request, `client.Do`, `ioutil.ReadAll`) is
abstracted: a completed round trip is a value of type
`Except GoError (HttpResponse β)`, where the type `β` stands for the raw
response body bytes, and `json.Unmarshal` is abstracted as an explicit
decoding function `β → Except GoError _`.  The paginated list endpoint is
abstracted as a function from the query parameters `page` and `per_page`
to the round-trip result.  Everything past that point — the status-code
dispatch of every operation, the `fmt.Errorf` message formats, the
pagination loop of `GetAllAwsAccounts`, and the JSON shape produced by
`json.Marshal` on `AwsAccount` — is translated directly from the source.
The non-terminating `for` loop of `GetAllAwsAccounts` is given fuel; the
loop additionally records the (page, per_page) query pair of every request
it issues, so that theorems can speak about the requests made.
-/

/-- Go struct `AwsAccountAuthentication` (aws_account.go lines 28-34).  The
field `secreyKey` keeps the source's spelling of `SecreyKey`; its JSON tag
is `secret_key`. -/
structure AwsAccountAuthentication where
  protocol : String
  accessKey : String
  secreyKey : String
  assumeRoleArn : String
  assumeRoleExternalID : String
deriving DecidableEq

/-- Go struct `AwsAccount` (aws_account.go lines 16-20). `ID` is a Go `int`,
modelled as `Int`. -/
structure AwsAccount where
  id : Int
  name : String
  authentication : AwsAccountAuthentication
deriving DecidableEq

/-- Go struct `AwsAccounts` (aws_account.go lines 23-25): the unmarshalling
target for one page of GET results, field `Accounts` with tag
`aws_accounts`. -/
structure AwsAccounts where
  accounts : List AwsAccount
deriving DecidableEq

/-- Error values returned by the Go functions.
`errClientAuthenticationError` models the package-level value
`ErrClientAuthenticationError` declared in `client.go` (not part of this
snapshot; it is a fixed distinguished error value, so a constructor
suffices).  `errAwsAccountNotFound` models `ErrAwsAccountNotFound`
(aws_account.go line 38).  `transportError` stands for errors surfaced by
`client.Do` / `ioutil.ReadAll`, `jsonError` for `json.Unmarshal` errors,
and `errorf` for the `fmt.Errorf` results, carrying the formatted
message. -/
inductive GoError where
  | errClientAuthenticationError : GoError
  | errAwsAccountNotFound : GoError
  | transportError (msg : String) : GoError
  | jsonError (msg : String) : GoError
  | errorf (msg : String) : GoError
deriving DecidableEq

/-- An HTTP response as the Go code observes it: the numeric status code
and the (already fully read) body, of abstract byte type `β`. -/
structure HttpResponse (β : Type) where
  statusCode : Nat
  body : β
deriving DecidableEq

/-- The message of `fmt.Errorf("Unknown Response from CloudHealth: \x60%d\x60", ...)`
at aws_account.go line 72 (the paginated GET helper). -/
def unknownResponseFromMessage (code : Nat) : String :=
  "Unknown Response from CloudHealth: \x60" ++ toString code ++ "\x60"

/-- The message of `fmt.Errorf("Unknown Response with CloudHealth: \x60%d\x60", ...)`
used by Get (line 143), Create (line 186), Update (line 229) and Delete
(line 260). -/
def unknownResponseWithMessage (code : Nat) : String :=
  "Unknown Response with CloudHealth: \x60" ++ toString code ++ "\x60"

/-- The message of the 422 branch of Create (line 184) and Update (line 227). -/
def conflictMessage (name : String) : String :=
  "Bad Request. Please check if a AWS Account with this name \x60" ++ name
    ++ "\x60 already exists"

/-- `getPaginatedAwsAccounts` (aws_account.go lines 41-74), past the
transport: `doRequest` is the outcome of `client.Do` + `ReadAll` for the
request carrying the `page`/`per_page` query, `decodePage` is
`json.Unmarshal` into `AwsAccounts`.  Status dispatch:
200 → decode, 401 → `ErrClientAuthenticationError`,
404 → `ErrAwsAccountNotFound`, otherwise the unknown-response error. -/
def getPaginatedAwsAccounts {β : Type} (doRequest : Except GoError (HttpResponse β))
    (decodePage : β → Except GoError AwsAccounts) : Except GoError AwsAccounts :=
  match doRequest with
  | .error err => .error err
  | .ok resp =>
    if resp.statusCode = 200 then
      decodePage resp.body
    else if resp.statusCode = 401 then
      .error .errClientAuthenticationError
    else if resp.statusCode = 404 then
      .error .errAwsAccountNotFound
    else
      .error (.errorf (unknownResponseFromMessage resp.statusCode))

/-- One iteration's fetch inside `GetAllAwsAccounts` (aws_account.go lines
94-98): call `getPaginatedAwsAccounts` for page `pageNo` with `perPage`,
propagate its error, and otherwise yield the page's `Accounts` field.
`server` maps the `page`/`per_page` query parameters to the transport
outcome. -/
def fetchAccountsPage {β : Type} (server : Nat → Int → Except GoError (HttpResponse β))
    (decodePage : β → Except GoError AwsAccounts) (perPage : Int) (pageNo : Nat) :
    Except GoError (List AwsAccount) :=
  match getPaginatedAwsAccounts (server pageNo perPage) decodePage with
  | .error err => .error err
  | .ok accountsPage => .ok accountsPage.accounts

/-- The `for` loop of `GetAllAwsAccounts` (aws_account.go line 93):
`for pageNo, pageLen := 1, perPage; pageLen == perPage; pageNo++`.
Each iteration fetches page `pageNo`, returns on error, appends the page's
accounts, and sets `pageLen` to the fetched page's length.  The loop is
given `fuel`; the first component of the result is the list of
(page, per_page) query pairs of the requests issued, the second is `none`
when the fuel ran out with the loop still running, and otherwise the Go
function's return value. -/
def getAllAwsAccountsLoop (fetchPage : Nat → Except GoError (List AwsAccount))
    (perPage : Int) :
    Nat → Nat → Int → List AwsAccount →
    List (Nat × Int) × Option (Except GoError (List AwsAccount))
  | 0, _, _, _ => ([], none)
  | fuel + 1, pageNo, pageLen, accounts =>
    if pageLen = perPage then
      match fetchPage pageNo with
      | .error err => ([(pageNo, perPage)], some (.error err))
      | .ok page =>
        let rest := getAllAwsAccountsLoop fetchPage perPage fuel (pageNo + 1)
          (page.length : Int) (accounts ++ page)
        ((pageNo, perPage) :: rest.1, rest.2)
    else
      ([], some (.ok accounts))

/-- `GetAllAwsAccounts` (aws_account.go lines 77-105): run the pagination
loop from page 1 with `pageLen` initialised to `perPage` and an empty
accumulator. -/
def GetAllAwsAccounts {β : Type} (server : Nat → Int → Except GoError (HttpResponse β))
    (decodePage : β → Except GoError AwsAccounts) (perPage : Int) (fuel : Nat) :
    List (Nat × Int) × Option (Except GoError (List AwsAccount)) :=
  getAllAwsAccountsLoop (fetchAccountsPage server decodePage perPage) perPage fuel 1 perPage []

/-- `GetAwsAccount` (aws_account.go lines 108-145), past the transport:
200 → decode an `AwsAccount`, 401 → authentication error, 404 → not found,
otherwise unknown-response ("with" variant). -/
def GetAwsAccount {β : Type} (doRequest : Except GoError (HttpResponse β))
    (decodeAccount : β → Except GoError AwsAccount) : Except GoError AwsAccount :=
  match doRequest with
  | .error err => .error err
  | .ok resp =>
    if resp.statusCode = 200 then
      decodeAccount resp.body
    else if resp.statusCode = 401 then
      .error .errClientAuthenticationError
    else if resp.statusCode = 404 then
      .error .errAwsAccountNotFound
    else
      .error (.errorf (unknownResponseWithMessage resp.statusCode))

/-- `CreateAwsAccount` (aws_account.go lines 148-188), past the transport:
201 → decode, 401 → authentication error, 422 → name-conflict `fmt.Errorf`
mentioning `account.Name`, otherwise unknown-response.  Note there is no
200 branch: the only success status is 201. -/
def CreateAwsAccount {β : Type} (account : AwsAccount)
    (doRequest : Except GoError (HttpResponse β))
    (decodeAccount : β → Except GoError AwsAccount) : Except GoError AwsAccount :=
  match doRequest with
  | .error err => .error err
  | .ok resp =>
    if resp.statusCode = 201 then
      decodeAccount resp.body
    else if resp.statusCode = 401 then
      .error .errClientAuthenticationError
    else if resp.statusCode = 422 then
      .error (.errorf (conflictMessage account.name))
    else
      .error (.errorf (unknownResponseWithMessage resp.statusCode))

/-- `UpdateAwsAccount` (aws_account.go lines 191-231), past the transport:
200 → decode, 401 → authentication error, 422 → name-conflict error,
otherwise unknown-response. -/
def UpdateAwsAccount {β : Type} (account : AwsAccount)
    (doRequest : Except GoError (HttpResponse β))
    (decodeAccount : β → Except GoError AwsAccount) : Except GoError AwsAccount :=
  match doRequest with
  | .error err => .error err
  | .ok resp =>
    if resp.statusCode = 200 then
      decodeAccount resp.body
    else if resp.statusCode = 401 then
      .error .errClientAuthenticationError
    else if resp.statusCode = 422 then
      .error (.errorf (conflictMessage account.name))
    else
      .error (.errorf (unknownResponseWithMessage resp.statusCode))

/-- `DeleteAwsAccount` (aws_account.go lines 234-262), past the transport.
The Go function never reads the response body (there is no `ReadAll` and
no `Unmarshal`): accordingly this definition takes no decoding function
and returns `Unit` on success.  200 → success, 204 → success,
404 → not found, 401 → authentication error, otherwise unknown-response. -/
def DeleteAwsAccount {β : Type} (doRequest : Except GoError (HttpResponse β)) :
    Except GoError Unit :=
  match doRequest with
  | .error err => .error err
  | .ok resp =>
    if resp.statusCode = 200 then
      .ok ()
    else if resp.statusCode = 204 then
      .ok ()
    else if resp.statusCode = 404 then
      .error .errAwsAccountNotFound
    else if resp.statusCode = 401 then
      .error .errClientAuthenticationError
    else
      .error (.errorf (unknownResponseWithMessage resp.statusCode))

/-- A JSON value, as far as `json.Marshal` on `AwsAccount` can produce one:
strings, integers and objects with ordered members. -/
inductive Json where
  | str (s : String) : Json
  | num (n : Int) : Json
  | obj (members : List (String × Json)) : Json

/-- Member lookup in an object's member list (first match). -/
def lookupMember : List (String × Json) → String → Option Json
  | [], _ => none
  | (k, v) :: rest, key => if k = key then some v else lookupMember rest key

/-- Lookup of a member of a JSON object; `none` on non-objects. -/
def Json.lookup : Json → String → Option Json
  | .obj members, key => lookupMember members key
  | .str _, _ => none
  | .num _, _ => none

/-- `json.Marshal` on `AwsAccountAuthentication` (tags at aws_account.go
lines 29-33): `protocol` is unconditional; the four credential fields all
carry `omitempty`, so each is omitted entirely when its value is the empty
string. -/
def AwsAccountAuthentication.marshal (auth : AwsAccountAuthentication) : Json :=
  .obj ([("protocol", .str auth.protocol)]
    ++ (if auth.accessKey = "" then [] else [("access_key", .str auth.accessKey)])
    ++ (if auth.secreyKey = "" then [] else [("secret_key", .str auth.secreyKey)])
    ++ (if auth.assumeRoleArn = "" then [] else [("assume_role_arn", .str auth.assumeRoleArn)])
    ++ (if auth.assumeRoleExternalID = "" then []
        else [("assume_role_external_id", .str auth.assumeRoleExternalID)]))

/-- `json.Marshal` on `AwsAccount` (tags at aws_account.go lines 17-19):
`id`, `name` and `authentication` carry no `omitempty`, so all three are
always emitted. -/
def AwsAccount.marshal (account : AwsAccount) : Json :=
  .obj [("id", .num account.id), ("name", .str account.name),
    ("authentication", account.authentication.marshal)]

/-- The request body `CreateAwsAccount` sends (aws_account.go line 150:
`body, _ := json.Marshal(account)`). -/
def createRequestBody (account : AwsAccount) : Json :=
  account.marshal

/-- The request body `UpdateAwsAccount` sends (aws_account.go line 196). -/
def updateRequestBody (account : AwsAccount) : Json :=
  account.marshal

/-- A concrete account used by witnesses and counterexamples. -/
def sampleAccount (i : Nat) : AwsAccount :=
  ⟨(i : Int), "acct" ++ toString i, ⟨"assume_role", "", "", "", ""⟩⟩

/-- A trivial body decoder: the abstract body type is already `AwsAccounts`. -/
def decodeSame : AwsAccounts → Except GoError AwsAccounts :=
  fun page => .ok page

/-- Twenty-five concrete accounts. -/
def allAccounts25 : List AwsAccount :=
  (List.range 25).map sampleAccount

/-- Four concrete accounts. -/
def allAccounts4 : List AwsAccount :=
  (List.range 4).map sampleAccount

/-- A well-behaved paginated server over a fixed account list: page `p` with
any requested size is answered 200 with the `p`-th slice of `N` accounts. -/
def sliceServer (all : List AwsAccount) (N : Nat) :
    Nat → Int → Except GoError (HttpResponse AwsAccounts) :=
  fun p _ => .ok ⟨200, ⟨(all.drop ((p - 1) * N)).take N⟩⟩

/-- A misbehaving server that answers every page request with two accounts,
regardless of the requested page size. -/
def oversizeServer : Nat → Int → Except GoError (HttpResponse AwsAccounts) :=
  fun _ _ => .ok ⟨200, ⟨[sampleAccount 0, sampleAccount 1]⟩⟩

/-- A server whose first page succeeds with two accounts and whose second
request fails at the transport level. -/
def failingServer : Nat → Int → Except GoError (HttpResponse AwsAccounts) :=
  fun p _ =>
    if p = 1 then .ok ⟨200, ⟨[sampleAccount 0, sampleAccount 1]⟩⟩
    else .error (.transportError "connection reset")

/-- A server that answers every page request 200 with an empty page. -/
def emptyPagesServer : Nat → Int → Except GoError (HttpResponse AwsAccounts) :=
  fun _ _ => .ok ⟨200, ⟨[]⟩⟩

/-- A server that answers every request with 401 Unauthorized. -/
def auth401Server : Nat → Int → Except GoError (HttpResponse Unit) :=
  fun _ _ => .ok ⟨401, ()⟩

/-! ### Helper lemmas -/

/-- The pagination loop returns the accumulator untouched as soon as the
last page's length differs from `perPage`. -/
lemma getAllLoop_stop (fp : Nat → Except GoError (List AwsAccount)) (perPage : Int)
    (fuel pageNo : Nat) (pageLen : Int) (acc : List AwsAccount)
    (h : pageLen ≠ perPage) (hf : 0 < fuel) :
    getAllAwsAccountsLoop fp perPage fuel pageNo pageLen acc = ([], some (.ok acc)) := by
  cases fuel with
  | zero => exact absurd hf (lt_irrefl 0)
  | succ f => simp [getAllAwsAccountsLoop, h]

lemma getLast?_cons_of_ne_nil {α : Type} (a : α) (l : List α) (h : l ≠ []) :
    (a :: l).getLast? = l.getLast? := by
  cases l with
  | nil => exact absurd rfl h
  | cons b t => simp [List.getLast?]

/-! ### Status-code dispatch claims -/

/-- Claim C4: for every response body and every operation of the five, a
status code outside that operation's table (for `GetAllAwsAccounts` and
`GetAwsAccount`: 200/401/404; for `CreateAwsAccount`: 201/401/422, so in
particular 200 falls here; for `UpdateAwsAccount`: 200/401/422; for
`DeleteAwsAccount`: 200/204/404/401) yields the generic unknown-response
`fmt.Errorf` error, and its message carries the raw numeric status code. -/
theorem unknownStatus_yields_unknown_response_error {β : Type} (c : Nat) (b : β)
    (account : AwsAccount) (decodePage : β → Except GoError AwsAccounts)
    (decodeAccount : β → Except GoError AwsAccount)
    (server : Nat → Int → Except GoError (HttpResponse β)) (perPage : Int) (fuel : Nat) :
    (c ≠ 200 → c ≠ 401 → c ≠ 404 →
      getPaginatedAwsAccounts (.ok ⟨c, b⟩) decodePage =
        .error (.errorf (unknownResponseFromMessage c)) ∧
      GetAwsAccount (.ok ⟨c, b⟩) decodeAccount =
        .error (.errorf (unknownResponseWithMessage c)) ∧
      (server 1 perPage = .ok ⟨c, b⟩ → 0 < fuel →
        GetAllAwsAccounts server decodePage perPage fuel =
          ([(1, perPage)], some (.error (.errorf (unknownResponseFromMessage c)))))) ∧
    (c ≠ 201 → c ≠ 401 → c ≠ 422 →
      CreateAwsAccount account (.ok ⟨c, b⟩) decodeAccount =
        .error (.errorf (unknownResponseWithMessage c))) ∧
    (c ≠ 200 → c ≠ 401 → c ≠ 422 →
      UpdateAwsAccount account (.ok ⟨c, b⟩) decodeAccount =
        .error (.errorf (unknownResponseWithMessage c))) ∧
    (c ≠ 200 → c ≠ 204 → c ≠ 404 → c ≠ 401 →
      DeleteAwsAccount (β := β) (.ok ⟨c, b⟩) =
        .error (.errorf (unknownResponseWithMessage c))) ∧
    (∃ s t, unknownResponseFromMessage c = s ++ toString c ++ t) ∧
    (∃ s t, unknownResponseWithMessage c = s ++ toString c ++ t) := by
  refine ⟨fun h200 h401 h404 => ⟨?_, ?_, ?_⟩, fun h201 h401 h422 => ?_,
    fun h200 h401 h422 => ?_, fun h200 h204 h404 h401 => ?_,
    ⟨"Unknown Response from CloudHealth: \x60", "\x60", rfl⟩,
    ⟨"Unknown Response with CloudHealth: \x60", "\x60", rfl⟩⟩
  · simp [getPaginatedAwsAccounts, h200, h401, h404]
  · simp [GetAwsAccount, h200, h401, h404]
  · intro hs hf
    obtain ⟨f, rfl⟩ : ∃ f, fuel = f + 1 := ⟨fuel - 1, by omega⟩
    have hfetch : fetchAccountsPage server decodePage perPage 1 =
        .error (.errorf (unknownResponseFromMessage c)) := by
      simp [fetchAccountsPage, hs, getPaginatedAwsAccounts, h200, h401, h404]
    simp [GetAllAwsAccounts, getAllAwsAccountsLoop, hfetch]
  · simp [CreateAwsAccount, h201, h401, h422]
  · simp [UpdateAwsAccount, h200, h401, h422]
  · simp [DeleteAwsAccount, h200, h204, h404, h401]

/-- Witness for C4 at status 418 (all five operations) and at status 200
for `CreateAwsAccount`, whose only success status is 201. -/
theorem unknownStatus_yields_unknown_response_error_w :
    getPaginatedAwsAccounts (.ok ⟨418, ()⟩) (fun _ => .ok ⟨[]⟩) =
      .error (.errorf (unknownResponseFromMessage 418)) ∧
    DeleteAwsAccount (β := Unit) (.ok ⟨418, ()⟩) =
      .error (.errorf (unknownResponseWithMessage 418)) ∧
    CreateAwsAccount (sampleAccount 0) (.ok ⟨(200 : Nat), ()⟩)
        (fun _ => .error (.jsonError "unreachable")) =
      .error (.errorf (unknownResponseWithMessage 200)) := by
  refine ⟨?_, ?_, ?_⟩
  · exact ((unknownStatus_yields_unknown_response_error 418 () (sampleAccount 0)
      (fun _ => .ok ⟨[]⟩) (fun _ => .error (.jsonError "unreachable"))
      auth401Server 0 0).1 (by decide) (by decide) (by decide)).1
  · exact (unknownStatus_yields_unknown_response_error 418 () (sampleAccount 0)
      (fun _ => .ok ⟨[]⟩) (fun _ => .error (.jsonError "unreachable"))
      auth401Server 0 0).2.2.2.1 (by decide) (by decide) (by decide) (by decide)
  · exact (unknownStatus_yields_unknown_response_error 200 () (sampleAccount 0)
      (fun _ => .ok ⟨[]⟩) (fun _ => .error (.jsonError "unreachable"))
      auth401Server 0 0).2.1 (by decide) (by decide) (by decide)

/-- Claim C5: an HTTP 401 response yields `ErrClientAuthenticationError`
on every one of the five operations, regardless of the body. -/
theorem status401_yields_auth_error {β : Type} (b : β) (account : AwsAccount)
    (decodePage : β → Except GoError AwsAccounts)
    (decodeAccount : β → Except GoError AwsAccount)
    (server : Nat → Int → Except GoError (HttpResponse β)) (perPage : Int) (fuel : Nat) :
    getPaginatedAwsAccounts (.ok ⟨401, b⟩) decodePage =
      .error .errClientAuthenticationError ∧
    GetAwsAccount (.ok ⟨401, b⟩) decodeAccount = .error .errClientAuthenticationError ∧
    CreateAwsAccount account (.ok ⟨401, b⟩) decodeAccount =
      .error .errClientAuthenticationError ∧
    UpdateAwsAccount account (.ok ⟨401, b⟩) decodeAccount =
      .error .errClientAuthenticationError ∧
    DeleteAwsAccount (β := β) (.ok ⟨401, b⟩) = .error .errClientAuthenticationError ∧
    (server 1 perPage = .ok ⟨401, b⟩ → 0 < fuel →
      GetAllAwsAccounts server decodePage perPage fuel =
        ([(1, perPage)], some (.error .errClientAuthenticationError))) := by
  refine ⟨by simp [getPaginatedAwsAccounts], by simp [GetAwsAccount],
    by simp [CreateAwsAccount], by simp [UpdateAwsAccount],
    by simp [DeleteAwsAccount], fun hs hf => ?_⟩
  obtain ⟨f, rfl⟩ : ∃ f, fuel = f + 1 := ⟨fuel - 1, by omega⟩
  have hfetch : fetchAccountsPage server decodePage perPage 1 =
      .error .errClientAuthenticationError := by
    simp [fetchAccountsPage, hs, getPaginatedAwsAccounts]
  simp [GetAllAwsAccounts, getAllAwsAccountsLoop, hfetch]

/-- Witness for C5: a concrete all-401 server aborts `GetAllAwsAccounts`
on its first request with the authentication error. -/
theorem status401_yields_auth_error_w :
    GetAllAwsAccounts auth401Server (fun _ => .ok ⟨[]⟩) 7 5 =
      ([(1, 7)], some (.error .errClientAuthenticationError)) :=
  (status401_yields_auth_error () (sampleAccount 0) (fun _ => .ok ⟨[]⟩)
    (fun _ => .error (.jsonError "unreachable")) auth401Server 7 5).2.2.2.2.2
    rfl (by decide)

/-- Claim C6: an HTTP 422 response on `CreateAwsAccount` or
`UpdateAwsAccount` yields the conflict `fmt.Errorf` error, whose message
contains the name field of the submitted account, for every body. -/
theorem status422_conflict_contains_name {β : Type} (account : AwsAccount) (b : β)
    (decodeAccount : β → Except GoError AwsAccount) :
    CreateAwsAccount account (.ok ⟨422, b⟩) decodeAccount =
      .error (.errorf (conflictMessage account.name)) ∧
    UpdateAwsAccount account (.ok ⟨422, b⟩) decodeAccount =
      .error (.errorf (conflictMessage account.name)) ∧
    ∃ s t, conflictMessage account.name = s ++ account.name ++ t := by
  refine ⟨by simp [CreateAwsAccount], by simp [UpdateAwsAccount],
    "Bad Request. Please check if a AWS Account with this name \x60",
    "\x60 already exists", rfl⟩

/-- Claim C7: `DeleteAwsAccount` succeeds exactly on status 200 or 204,
maps 404 to `ErrAwsAccountNotFound`, and its outcome does not depend on
the response body (the Go function never reads it; the embedding takes no
decoder and returns no account). -/
theorem deleteAwsAccount_status_contract {β : Type} (c : Nat) (b b' : β) :
    (DeleteAwsAccount (β := β) (.ok ⟨c, b⟩) = .ok () ↔ (c = 200 ∨ c = 204)) ∧
    (c = 404 → DeleteAwsAccount (β := β) (.ok ⟨c, b⟩) = .error .errAwsAccountNotFound) ∧
    DeleteAwsAccount (β := β) (.ok ⟨c, b⟩) = DeleteAwsAccount (β := β) (.ok ⟨c, b'⟩) := by
  refine ⟨?_, fun h404 => by simp [DeleteAwsAccount, h404], ?_⟩
  · simp only [DeleteAwsAccount]
    split_ifs with h1 h2 h3 h4 <;> simp_all
  · simp only [DeleteAwsAccount]

/-- Witness for C7 at status 404. -/
theorem deleteAwsAccount_status_contract_w :
    DeleteAwsAccount (β := Unit) (.ok ⟨404, ()⟩) = .error .errAwsAccountNotFound :=
  (deleteAwsAccount_status_contract 404 () ()).2.1 rfl

/-! ### JSON marshalling claims -/

/-- Claim C8: in the JSON body sent by Create and Update, each of the four
optional authentication fields is present exactly when its value is
non-empty; an empty value leads to the member being absent altogether
(there is no member whose value would be null or the empty string). -/
theorem marshal_omitempty_auth_fields (account : AwsAccount)
    (auth : AwsAccountAuthentication) :
    (createRequestBody account).lookup "authentication" =
      some account.authentication.marshal ∧
    (updateRequestBody account).lookup "authentication" =
      some account.authentication.marshal ∧
    auth.marshal.lookup "access_key" =
      (if auth.accessKey = "" then none else some (.str auth.accessKey)) ∧
    auth.marshal.lookup "secret_key" =
      (if auth.secreyKey = "" then none else some (.str auth.secreyKey)) ∧
    auth.marshal.lookup "assume_role_arn" =
      (if auth.assumeRoleArn = "" then none else some (.str auth.assumeRoleArn)) ∧
    auth.marshal.lookup "assume_role_external_id" =
      (if auth.assumeRoleExternalID = "" then none
       else some (.str auth.assumeRoleExternalID)) := by
  refine ⟨rfl, rfl, ?_, ?_, ?_, ?_⟩ <;>
    · simp only [AwsAccountAuthentication.marshal, Json.lookup]
      split_ifs <;> rfl

/-- Claim C10: the `id`, `name` and `authentication.protocol` members are
always emitted by the marshaller (none carries `omitempty`), whatever the
values — in particular the Create body always has an explicit `id`. -/
theorem marshal_always_emits_id_name_protocol (account : AwsAccount) :
    (createRequestBody account).lookup "id" = some (.num account.id) ∧
    (updateRequestBody account).lookup "id" = some (.num account.id) ∧
    account.marshal.lookup "name" = some (.str account.name) ∧
    account.marshal.lookup "authentication" = some account.authentication.marshal ∧
    account.authentication.marshal.lookup "protocol" =
      some (.str account.authentication.protocol) := by
  exact ⟨rfl, rfl, rfl, rfl, rfl⟩

/-! ### Pagination claims -/

/-- With `perPage = 0` and every fetch succeeding with an empty page, the
loop body always re-establishes `pageLen = 0 = perPage`, so every unit of
fuel is spent on a further request. -/
lemma getAllLoop_perPageZero (fp : Nat → Except GoError (List AwsAccount))
    (hfp : ∀ p, fp p = .ok ([] : List AwsAccount)) :
    ∀ (fuel pageNo : Nat) (acc : List AwsAccount),
    getAllAwsAccountsLoop fp 0 fuel pageNo 0 acc =
      ((List.range' pageNo fuel).map fun p => (p, (0 : Int)), none) := by
  intro fuel
  induction fuel with
  | zero => intro pageNo acc; simp [getAllAwsAccountsLoop]
  | succ f ih =>
    intro pageNo acc
    simp only [getAllAwsAccountsLoop, hfp pageNo]
    rw [List.range'_succ]
    simp [ih (pageNo + 1) acc]

/-- Claim C9: for page size 0, if every page fetch succeeds with an empty
page then `GetAllAwsAccounts` never terminates — the loop condition
`pageLen == perPage` holds forever, so for every amount of fuel the loop
has issued exactly `fuel` requests (pages 1, 2, ...) and is still
running (`none`). -/
theorem getAllAwsAccounts_perPageZero_nonterminating {β : Type}
    (server : Nat → Int → Except GoError (HttpResponse β))
    (decodePage : β → Except GoError AwsAccounts)
    (hfp : ∀ p, fetchAccountsPage server decodePage 0 p = .ok ([] : List AwsAccount))
    (fuel : Nat) :
    GetAllAwsAccounts server decodePage 0 fuel =
      ((List.range' 1 fuel).map fun p => (p, (0 : Int)), none) :=
  getAllLoop_perPageZero (fetchAccountsPage server decodePage 0) hfp fuel 1 []

/-- Witness for C9: a concrete empty-pages server with page size 0 has
issued three requests after three units of fuel and is still running. -/
theorem getAllAwsAccounts_perPageZero_nonterminating_w :
    GetAllAwsAccounts emptyPagesServer decodeSame 0 3 =
      ([(1, 0), (2, 0), (3, 0)], none) := by
  have h := getAllAwsAccounts_perPageZero_nonterminating emptyPagesServer decodeSame
    (fun p => rfl) 3
  simpa [List.range'] using h

/-- Arithmetic behind the request count of the pagination loop: the loop
issues `T / N + 1` requests, which equals the ceiling `(T + N - 1) / N`
plus an extra request exactly when `N` divides `T`. -/
lemma div_succ_eq_ceil_add (T N : Nat) (hN : 0 < N) :
    T / N + 1 = (T + N - 1) / N + (if N ∣ T then 1 else 0) := by
  by_cases h : N ∣ T
  · obtain ⟨q, rfl⟩ := h
    have h1 : N * q + N - 1 = N * q + (N - 1) := by omega
    have h2 : (N * q + (N - 1)) / N = q := by
      rw [Nat.mul_add_div hN, Nat.div_eq_of_lt (by omega : N - 1 < N)]
      omega
    rw [if_pos (Nat.dvd_mul_right N q), h1, h2, Nat.mul_div_cancel_left q hN]
  · rw [if_neg h]
    have hmod : T % N ≠ 0 := fun hh => h (Nat.dvd_of_mod_eq_zero hh)
    have hq := Nat.div_add_mod T N
    have hrN : T % N < N := Nat.mod_lt T hN
    have h2 : T + N - 1 = N * (T / N + 1) + (T % N - 1) := by
      rw [Nat.mul_add, Nat.mul_one]
      omega
    rw [h2, Nat.mul_add_div hN, Nat.div_eq_of_lt (by omega : T % N - 1 < N)]

/-- Running the loop against a well-behaved server: if from `pageNo` on the
fetches serve consecutive `N`-slices of `rest`, the loop consumes all of
`rest` in `rest.length / N + 1` requests. -/
lemma getAllLoop_wellBehaved (fp : Nat → Except GoError (List AwsAccount))
    (N : Nat) (hN : 0 < N) :
    ∀ (fuel : Nat) (rest : List AwsAccount) (pageNo : Nat) (acc : List AwsAccount),
    rest.length + 2 ≤ fuel →
    (∀ j, fp (pageNo + j) = .ok ((rest.drop (j * N)).take N)) →
    getAllAwsAccountsLoop fp (N : Int) fuel pageNo (N : Int) acc =
      ((List.range' pageNo (rest.length / N + 1)).map fun p => (p, (N : Int)),
        some (.ok (acc ++ rest))) := by
  intro fuel
  induction fuel with
  | zero => intro rest pageNo acc hfuel _; omega
  | succ f ih =>
    intro rest pageNo acc hfuel hfetch
    have h0 := hfetch 0
    rw [Nat.add_zero, Nat.zero_mul, List.drop_zero] at h0
    by_cases hlt : rest.length < N
    · rw [List.take_of_length_le (le_of_lt hlt)] at h0
      have hne : ((rest.length : Int)) ≠ (N : Int) := by
        exact_mod_cast (by omega : rest.length ≠ N)
      simp only [getAllAwsAccountsLoop, h0]
      rw [getAllLoop_stop fp (N : Int) f (pageNo + 1) (rest.length : Int)
        (acc ++ rest) hne (by omega)]
      simp [Nat.div_eq_of_lt hlt, List.range'_one]
    · have hge : N ≤ rest.length := le_of_not_lt hlt
      have hlen : ((rest.take N).length : Int) = (N : Int) := by
        rw [List.length_take, min_eq_left hge]
      have hfuel' : (rest.drop N).length + 2 ≤ f := by
        rw [List.length_drop]; omega
      have hfetch' : ∀ j, fp ((pageNo + 1) + j) =
          .ok (((rest.drop N).drop (j * N)).take N) := by
        intro j
        have h := hfetch (j + 1)
        rw [show pageNo + (j + 1) = (pageNo + 1) + j by omega] at h
        rw [List.drop_drop, show N + j * N = (j + 1) * N by ring]
        exact h
      simp only [getAllAwsAccountsLoop, h0]
      rw [hlen, ih (rest.drop N) (pageNo + 1) (acc ++ rest.take N) hfuel' hfetch']
      have hdiv : rest.length / N = (rest.length - N) / N + 1 :=
        Nat.div_eq_sub_div hN hge
      rw [List.length_drop, hdiv]
      simp [List.range'_succ, List.append_assoc, List.take_append_drop]

/-- Claim C1: against a well-behaved server holding the account list `all`
(page `p` is the `p`-th consecutive slice of `N` accounts, so full pages
of `N` followed by one final short — possibly empty — page),
`GetAllAwsAccounts` with page size `N > 0` issues exactly
`ceil(T / N)` requests plus one extra request when `N` divides `T`
(`T = all.length`), numbered consecutively from page 1, and returns
exactly the `T` accounts in the server's concatenation order. -/
theorem getAllAwsAccounts_wellBehaved_requests_and_total {β : Type}
    (server : Nat → Int → Except GoError (HttpResponse β))
    (decodePage : β → Except GoError AwsAccounts)
    (N : Nat) (all : List AwsAccount) (fuel : Nat)
    (hN : 0 < N) (hfuel : all.length + 2 ≤ fuel)
    (hserver : ∀ p, 0 < p → fetchAccountsPage server decodePage (N : Int) p =
      .ok ((all.drop ((p - 1) * N)).take N)) :
    GetAllAwsAccounts server decodePage (N : Int) fuel =
      ((List.range' 1 ((all.length + N - 1) / N + if N ∣ all.length then 1 else 0)).map
        fun p => (p, (N : Int)), some (.ok all)) := by
  have hfetch : ∀ j, fetchAccountsPage server decodePage (N : Int) (1 + j) =
      .ok ((all.drop (j * N)).take N) := by
    intro j
    have h := hserver (1 + j) (by omega)
    rw [show 1 + j - 1 = j by omega] at h
    exact h
  have h := getAllLoop_wellBehaved (fetchAccountsPage server decodePage (N : Int))
    N hN fuel all 1 [] hfuel hfetch
  rw [GetAllAwsAccounts, h, div_succ_eq_ceil_add all.length N hN]
  simp

/-- Witness for C1: 25 accounts at page size 10 — pages of 10, 10, 5 —
give 3 requests and all 25 accounts back. -/
theorem getAllAwsAccounts_wellBehaved_requests_and_total_w :
    GetAllAwsAccounts (sliceServer allAccounts25 10) decodeSame ((10 : Nat) : Int) 30 =
      ((List.range' 1 ((allAccounts25.length + 10 - 1) / 10 +
          if 10 ∣ allAccounts25.length then 1 else 0)).map
        fun p => (p, ((10 : Nat) : Int)), some (.ok allAccounts25)) ∧
    (allAccounts25.length + 10 - 1) / 10 + (if 10 ∣ allAccounts25.length then 1 else 0)
      = 3 := by
  constructor
  · exact getAllAwsAccounts_wellBehaved_requests_and_total (sliceServer allAccounts25 10)
      decodeSame 10 allAccounts25 30 (by decide) (by decide) (fun p hp => rfl)
  · decide

/-- If the first `k - 1` fetches from `pageNo` on succeed with full pages
and the `k`-th fails, the loop surfaces that error after exactly `k`
requests. -/
lemma getAllLoop_error (fp : Nat → Except GoError (List AwsAccount)) (perPage : Int)
    (e : GoError) :
    ∀ (k fuel pageNo : Nat) (acc : List AwsAccount),
    0 < k → k ≤ fuel →
    (∀ i, i + 1 < k → ∃ pg, fp (pageNo + i) = .ok pg ∧ (pg.length : Int) = perPage) →
    fp (pageNo + (k - 1)) = .error e →
    getAllAwsAccountsLoop fp perPage fuel pageNo perPage acc =
      ((List.range' pageNo k).map fun p => (p, perPage), some (.error e)) := by
  intro k
  induction k with
  | zero => intro fuel pageNo acc hk; exact absurd hk (lt_irrefl 0)
  | succ k ih =>
    intro fuel pageNo acc hk hfuel hok herr
    obtain ⟨f, rfl⟩ : ∃ f, fuel = f + 1 := ⟨fuel - 1, by omega⟩
    by_cases hk0 : k = 0
    · subst hk0
      have herr0 : fp pageNo = .error e := by simpa using herr
      simp [getAllAwsAccountsLoop, herr0, List.range'_one]
    · have hk1 : 0 < k := Nat.pos_of_ne_zero hk0
      obtain ⟨pg, hpg, hlen⟩ := hok 0 (by omega)
      rw [Nat.add_zero] at hpg
      have herr' : fp ((pageNo + 1) + (k - 1)) = .error e := by
        rw [show (pageNo + 1) + (k - 1) = pageNo + (k + 1 - 1) by omega]
        exact herr
      have hok' : ∀ i, i + 1 < k →
          ∃ pg, fp ((pageNo + 1) + i) = .ok pg ∧ (pg.length : Int) = perPage := by
        intro i hi
        obtain ⟨pg', hpg', hlen'⟩ := hok (i + 1) (by omega)
        exact ⟨pg', by rw [show (pageNo + 1) + i = pageNo + (i + 1) by omega]; exact hpg',
          hlen'⟩
      simp only [getAllAwsAccountsLoop, hpg]
      rw [hlen, ih f (pageNo + 1) (acc ++ pg) hk1 (by omega) hok' herr']
      simp [List.range'_succ]

/-- Claim C3: if the fetch of page `k` fails (any error: transport, decode
or mapped status) while all earlier pages succeeded as full pages,
`GetAllAwsAccounts` returns exactly that error — the `Except.error` result
carries no accounts, so everything accumulated from pages `1..k-1` is
discarded and nothing partial is returned. -/
theorem getAllAwsAccounts_fail_fast {β : Type}
    (server : Nat → Int → Except GoError (HttpResponse β))
    (decodePage : β → Except GoError AwsAccounts) (perPage : Int)
    (fuel k : Nat) (e : GoError) (hk : 0 < k) (hfuel : k ≤ fuel)
    (hok : ∀ i, 0 < i → i < k → ∃ pg,
      fetchAccountsPage server decodePage perPage i = .ok pg ∧
      (pg.length : Int) = perPage)
    (herr : fetchAccountsPage server decodePage perPage k = .error e) :
    GetAllAwsAccounts server decodePage perPage fuel =
      ((List.range' 1 k).map fun p => (p, perPage), some (.error e)) := by
  rw [GetAllAwsAccounts]
  apply getAllLoop_error _ perPage e k fuel 1 [] hk hfuel
  · intro i hi
    obtain ⟨pg, hpg, hlen⟩ := hok (1 + i) (by omega) (by omega)
    exact ⟨pg, hpg, hlen⟩
  · rw [show 1 + (k - 1) = k by omega]
    exact herr

/-- Witness for C3: `failingServer` serves one full page of two accounts
and then fails; `GetAllAwsAccounts` returns the transport error after two
requests and surfaces none of the two accounts from page 1. -/
theorem getAllAwsAccounts_fail_fast_w :
    GetAllAwsAccounts failingServer decodeSame 2 10 =
      ((List.range' 1 2).map fun p => (p, (2 : Int)),
        some (.error (.transportError "connection reset"))) := by
  apply getAllAwsAccounts_fail_fast failingServer decodeSame 2 10 2
    (.transportError "connection reset") (by decide) (by decide)
  · intro i hi1 hi2
    have h1 : i = 1 := by omega
    subst h1
    exact ⟨[sampleAccount 0, sampleAccount 1], rfl, rfl⟩
  · rfl

/-- Full characterisation of a terminated run of the pagination loop
entered with `pageLen = perPage`: the requests are consecutive pages
starting at `pageNo`, all with `perPage`; an error outcome is the error of
the last request, all earlier requests having returned full pages; a
success outcome is the concatenation of the fetched pages, of which all
but the last have length equal to `perPage` and the last does not. -/
lemma getAllLoop_some_spec (fp : Nat → Except GoError (List AwsAccount)) (perPage : Int) :
    ∀ (fuel pageNo : Nat) (acc : List AwsAccount) (reqs : List (Nat × Int))
      (res : Except GoError (List AwsAccount)),
    getAllAwsAccountsLoop fp perPage fuel pageNo perPage acc = (reqs, some res) →
    0 < reqs.length ∧
    reqs = (List.range' pageNo reqs.length).map (fun p => (p, perPage)) ∧
    (∀ e, res = .error e →
      fp (pageNo + (reqs.length - 1)) = .error e ∧
      ∀ i, i + 1 < reqs.length →
        ∃ pg, fp (pageNo + i) = .ok pg ∧ (pg.length : Int) = perPage) ∧
    (∀ out, res = .ok out → ∃ pages : List (List AwsAccount),
      pages.length = reqs.length ∧
      (∀ i, i < pages.length → fp (pageNo + i) = .ok (pages.getD i [])) ∧
      out = acc ++ pages.flatten ∧
      (∀ i, i + 1 < pages.length → ((pages.getD i []).length : Int) = perPage) ∧
      ((pages.getLast?.getD []).length : Int) ≠ perPage) := by
  intro fuel
  induction fuel with
  | zero =>
    intro pageNo acc reqs res h
    simp [getAllAwsAccountsLoop] at h
  | succ f ih =>
    intro pageNo acc reqs res h
    cases hfp : fp pageNo with
    | error e =>
      simp only [getAllAwsAccountsLoop, hfp, if_true] at h
      rw [Prod.mk.injEq] at h
      obtain ⟨h1, h2⟩ := h
      subst h1
      have hres : res = .error e := by injection h2 with h2; exact h2.symm
      subst hres
      refine ⟨by simp, by simp [List.range'_one], ?_, ?_⟩
      · intro e' he'
        obtain rfl : e = e' := by injection he'
        refine ⟨by simpa using hfp, ?_⟩
        intro i hi
        exact absurd hi (by simp)
      · intro out hout
        exact absurd hout (by simp)
    | ok page =>
      simp only [getAllAwsAccountsLoop, hfp, if_true] at h
      by_cases hpl : (page.length : Int) = perPage
      · rw [hpl] at h
        rw [Prod.mk.injEq] at h
        obtain ⟨h1, h2⟩ := h
        subst h1
        have hR := ih (pageNo + 1) (acc ++ page)
          (getAllAwsAccountsLoop fp perPage f (pageNo + 1) perPage (acc ++ page)).1 res
          (by rw [← h2])
        obtain ⟨hpos', hreqs', herrc', hokc'⟩ := hR
        refine ⟨by simp, ?_, ?_, ?_⟩
        · rw [List.length_cons, List.range'_succ, List.map_cons]
          exact congrArg (List.cons (pageNo, perPage)) hreqs'
        · intro e he
          obtain ⟨he1, he2⟩ := herrc' e he
          constructor
          · rw [show pageNo +
              (((pageNo, perPage) ::
                (getAllAwsAccountsLoop fp perPage f (pageNo + 1) perPage
                  (acc ++ page)).1).length - 1) =
              (pageNo + 1) +
              ((getAllAwsAccountsLoop fp perPage f (pageNo + 1) perPage
                (acc ++ page)).1.length - 1) by
                simp only [List.length_cons]; omega]
            exact he1
          · intro i hi
            rw [List.length_cons] at hi
            cases i with
            | zero => exact ⟨page, by simpa using hfp, hpl⟩
            | succ j =>
              obtain ⟨pg, hpg, hl⟩ := he2 j (by omega)
              refine ⟨pg, ?_, hl⟩
              rw [show pageNo + (j + 1) = (pageNo + 1) + j by omega]
              exact hpg
        · intro out hout
          obtain ⟨pages', hlen', hfetch', hout', hfull', hlast'⟩ := hokc' out hout
          refine ⟨page :: pages', by simp [hlen'], ?_, ?_, ?_, ?_⟩
          · intro i hi
            cases i with
            | zero => simpa using hfp
            | succ j =>
              rw [List.length_cons] at hi
              rw [show pageNo + (j + 1) = (pageNo + 1) + j by omega]
              exact hfetch' j (by omega)
          · rw [hout']
            simp
          · intro i hi
            cases i with
            | zero => exact hpl
            | succ j =>
              rw [List.length_cons] at hi
              exact hfull' j (by omega)
          · have hne : pages' ≠ [] := by
              intro hnil
              rw [hnil] at hlen'
              simp at hlen'
              omega
            rw [getLast?_cons_of_ne_nil page pages' hne]
            exact hlast'
      · cases f with
        | zero =>
          simp [getAllAwsAccountsLoop] at h
        | succ f' =>
          rw [getAllLoop_stop fp perPage (f' + 1) (pageNo + 1) (page.length : Int)
            (acc ++ page) hpl (by omega)] at h
          rw [Prod.mk.injEq] at h
          obtain ⟨h1, h2⟩ := h
          subst h1
          have hres : res = .ok (acc ++ page) := by injection h2 with h2; exact h2.symm
          subst hres
          refine ⟨by simp, by simp [List.range'_one], ?_, ?_⟩
          · intro e he
            exact absurd he (by simp)
          · intro out hout
            obtain rfl : acc ++ page = out := by injection hout
            refine ⟨[page], rfl, ?_, by simp, ?_, ?_⟩
            · intro i hi
              have h0 : i = 0 := by simpa [Nat.lt_one_iff] using hi
              subst h0
              simpa using hfp
            · intro i hi
              exact absurd hi (by simp)
            · simpa using hpl

/-- Counterexample to claim C2 as stated: against a server that returns a
page LARGER than the requested page size (two accounts for `perPage = 1`),
`GetAllAwsAccounts` stops after the very first request and returns,
although that fetched page's length (2) is not strictly less than the
requested page size (1) and no fetch returned an error.  The loop's
guard is `pageLen == perPage`, i.e. it stops on any length different from
`perPage`, not only on a strictly smaller one. -/
theorem getAllAwsAccounts_stops_on_oversized_page :
    GetAllAwsAccounts oversizeServer decodeSame 1 5 =
      ([(1, 1)], some (.ok [sampleAccount 0, sampleAccount 1])) ∧
    fetchAccountsPage oversizeServer decodeSame 1 1 =
      .ok [sampleAccount 0, sampleAccount 1] ∧
    ¬ ((([sampleAccount 0, sampleAccount 1] : List AwsAccount).length : Int) < 1) :=
  ⟨rfl, rfl, by decide⟩

/-- Claim C2 (amended): `GetAllAwsAccounts` fetches pages sequentially
from page 1, incrementing by 1 and always requesting `perPage` items;
on an error outcome the last request failed and every earlier one
returned a page of length equal to `perPage`; on a success outcome the
result is the concatenation of the fetched pages in order, every page but
the last has length equal to `perPage`, and the last page's length
DIFFERS from `perPage` (amendment: the stop condition is `length ≠
perPage`, not `length < perPage` — an oversized page also stops the
loop). -/
theorem getAllAwsAccounts_request_trace_spec {β : Type}
    (server : Nat → Int → Except GoError (HttpResponse β))
    (decodePage : β → Except GoError AwsAccounts) (perPage : Int) (fuel : Nat)
    (reqs : List (Nat × Int)) (res : Except GoError (List AwsAccount))
    (h : GetAllAwsAccounts server decodePage perPage fuel = (reqs, some res)) :
    0 < reqs.length ∧
    reqs = (List.range' 1 reqs.length).map (fun p => (p, perPage)) ∧
    (∀ e, res = .error e →
      fetchAccountsPage server decodePage perPage reqs.length = .error e ∧
      ∀ i, 0 < i → i < reqs.length →
        ∃ pg, fetchAccountsPage server decodePage perPage i = .ok pg ∧
          (pg.length : Int) = perPage) ∧
    (∀ out, res = .ok out → ∃ pages : List (List AwsAccount),
      pages.length = reqs.length ∧
      (∀ i, i < pages.length →
        fetchAccountsPage server decodePage perPage (i + 1) = .ok (pages.getD i [])) ∧
      out = pages.flatten ∧
      (∀ i, i + 1 < pages.length → ((pages.getD i []).length : Int) = perPage) ∧
      ((pages.getLast?.getD []).length : Int) ≠ perPage) := by
  rw [GetAllAwsAccounts] at h
  obtain ⟨hpos, hreqs, herrc, hokc⟩ := getAllLoop_some_spec
    (fetchAccountsPage server decodePage perPage) perPage fuel 1 [] reqs res h
  refine ⟨hpos, hreqs, ?_, ?_⟩
  · intro e he
    obtain ⟨he1, he2⟩ := herrc e he
    refine ⟨?_, ?_⟩
    · rw [show reqs.length = 1 + (reqs.length - 1) by omega]
      exact he1
    · intro i hi0 hik
      obtain ⟨pg, hpg, hl⟩ := he2 (i - 1) (by omega)
      refine ⟨pg, ?_, hl⟩
      rw [show i = 1 + (i - 1) by omega]
      exact hpg
  · intro out hout
    obtain ⟨pages, hlen, hfetch, hout', hfull, hlast⟩ := hokc out hout
    refine ⟨pages, hlen, ?_, by simpa using hout', hfull, hlast⟩
    intro i hi
    rw [show i + 1 = 1 + i by omega]
    exact hfetch i hi

/-- Witness for the amended C2 at a concrete run: four accounts at page
size 2 — pages of 2, 2, then an empty page — three requests for pages
1, 2, 3. -/
theorem getAllAwsAccounts_request_trace_spec_w :
    0 < ([(1, (2 : Int)), (2, 2), (3, 2)] : List (Nat × Int)).length ∧
    ([(1, (2 : Int)), (2, 2), (3, 2)] : List (Nat × Int)) =
      (List.range' 1 ([(1, (2 : Int)), (2, 2), (3, 2)] : List (Nat × Int)).length).map
        (fun p => (p, (2 : Int))) ∧
    (∀ e, (Except.ok allAccounts4 : Except GoError (List AwsAccount)) = .error e →
      fetchAccountsPage (sliceServer allAccounts4 2) decodeSame 2
          ([(1, (2 : Int)), (2, 2), (3, 2)] : List (Nat × Int)).length = .error e ∧
      ∀ i, 0 < i → i < ([(1, (2 : Int)), (2, 2), (3, 2)] : List (Nat × Int)).length →
        ∃ pg, fetchAccountsPage (sliceServer allAccounts4 2) decodeSame 2 i = .ok pg ∧
          (pg.length : Int) = 2) ∧
    (∀ out, (Except.ok allAccounts4 : Except GoError (List AwsAccount)) = .ok out →
      ∃ pages : List (List AwsAccount),
        pages.length = ([(1, (2 : Int)), (2, 2), (3, 2)] : List (Nat × Int)).length ∧
        (∀ i, i < pages.length →
          fetchAccountsPage (sliceServer allAccounts4 2) decodeSame 2 (i + 1) =
            .ok (pages.getD i [])) ∧
        out = pages.flatten ∧
        (∀ i, i + 1 < pages.length → ((pages.getD i []).length : Int) = 2) ∧
        ((pages.getLast?.getD []).length : Int) ≠ 2) :=
  getAllAwsAccounts_request_trace_spec (sliceServer allAccounts4 2) decodeSame 2 10
    [(1, 2), (2, 2), (3, 2)] (.ok allAccounts4) rfl
